import Mathlib

/-!
Verification of the certificate-resolution and response-cache core of an
anonymizing DNS forwarding proxy (package `channels` / `main`).

Conventions of the embedding:
* Go byte strings (`[]byte`, `string`) are modelled as `List Nat` with values
  understood to be bytes; machine-integer wraparound is made explicit with
  `% 2 ^ w` where the Go code can actually wrap.
* Go `time.Time` / `time.Duration` values are modelled as `Int` nanoseconds.
* External collaborators (the Ed25519 verifier and the shared-key derivation
  primitive) are passed in as function parameters; purely external constants
  and the canonical-name normalizer are modelled from the spec, as marked.
-/

set_option autoImplicit false

namespace DnscryptProxy

/-- Big-endian interpretation of a byte list (Go `binary.BigEndian`). -/
def bytesToNatBE (l : List Nat) : Nat :=
  l.foldl (fun a b => a * 256 + b % 256) 0

/-- Big-endian encoding of `x` into `k` bytes (Go `binary.BigEndian.PutUint*`). -/
def natToBytesBE : Nat → Nat → List Nat
  | 0, _ => []
  | k + 1, x => natToBytesBE k (x / 256) ++ [x % 256]

/-- Go slice `l[start:stop]`. -/
def sliceB (l : List Nat) (start stop : Nat) : List Nat :=
  (l.drop start).take (stop - start)

namespace Sha512

/-- Truncation to a 64-bit machine word. -/
def w64 (x : Nat) : Nat := x % 18446744073709551616

/-- 64-bit right rotation. -/
def rotr (n x : Nat) : Nat := w64 ((x >>> n) ||| (x <<< (64 - n)))

def mask64 : Nat := 18446744073709551615

def bigSigma0 (x : Nat) : Nat := (rotr 28 x) ^^^ (rotr 34 x) ^^^ (rotr 39 x)

def bigSigma1 (x : Nat) : Nat := (rotr 14 x) ^^^ (rotr 18 x) ^^^ (rotr 41 x)

def smallSigma0 (x : Nat) : Nat := (rotr 1 x) ^^^ (rotr 8 x) ^^^ (x >>> 7)

def smallSigma1 (x : Nat) : Nat := (rotr 19 x) ^^^ (rotr 61 x) ^^^ (x >>> 6)

def ch (e f g : Nat) : Nat := (e &&& f) ^^^ ((e ^^^ mask64) &&& g)

def maj (a b c : Nat) : Nat := (a &&& b) ^^^ (a &&& c) ^^^ (b &&& c)

/-- The 80 SHA-512 round constants of FIPS 180-4 (the first 64 bits of the
fractional parts of the cube roots of the first 80 primes), written as
decimal machine words. -/
def roundK : List Nat :=
  [4794697086780616226, 8158064640168781261, 13096744586834688815,
   16840607885511220156, 4131703408338449720, 6480981068601479193,
   10538285296894168987, 12329834152419229976, 15566598209576043074,
   1334009975649890238, 2608012711638119052, 6128411473006802146,
   8268148722764581231, 9286055187155687089, 11230858885718282805,
   13951009754708518548, 16472876342353939154, 17275323862435702243,
   1135362057144423861, 2597628984639134821, 3308224258029322869,
   5365058923640841347, 6679025012923562964, 8573033837759648693,
   10970295158949994411, 12119686244451234320, 12683024718118986047,
   13788192230050041572, 14330467153632333762, 15395433587784984357,
   489312712824947311, 1452737877330783856, 2861767655752347644,
   3322285676063803686, 5560940570517711597, 5996557281743188959,
   7280758554555802590, 8532644243296465576, 9350256976987008742,
   10552545826968843579, 11727347734174303076, 12113106623233404929,
   14000437183269869457, 14369950271660146224, 15101387698204529176,
   15463397548674623760, 17586052441742319658, 1182934255886127544,
   1847814050463011016, 2177327727835720531, 2830643537854262169,
   3796741975233480872, 4115178125766777443, 5681478168544905931,
   6601373596472566643, 7507060721942968483, 8399075790359081724,
   8693463985226723168, 9568029438360202098, 10144078919501101548,
   10430055236837252648, 11840083180663258601, 13761210420658862357,
   14299343276471374635, 14566680578165727644, 15097957966210449927,
   16922976911328602910, 17689382322260857208, 500013540394364858,
   748580250866718886, 1242879168328830382, 1977374033974150939,
   2944078676154940804, 3659926193048069267, 4368137639120453308,
   4836135668995329356, 5532061633213252278, 6448918945643986474,
   6902733635092675308, 7801388544844847127]

/-- The SHA-512/256 initial hash state of FIPS 180-4, as decimal machine
words. -/
def iv512x256 : List Nat :=
  [2463787394917988140, 11481187982095705282, 2563595384472711505,
   10824532655140301501, 10819967247969091555, 13717434660681038226,
   3098927326965381290, 1060366662362279074]

/-- Extend a 16-word message block to the 80-word schedule, one word per step. -/
def extendSchedule (w : List Nat) : Nat → List Nat
  | 0 => w
  | n + 1 =>
    let w' := extendSchedule w n
    let t := w'.length
    w' ++ [w64 (smallSigma1 (w'.getD (t - 2) 0) + w'.getD (t - 7) 0 +
                smallSigma0 (w'.getD (t - 15) 0) + w'.getD (t - 16) 0)]

/-- One SHA-512 compression round. -/
def round (st : List Nat) (kw : Nat × Nat) : List Nat :=
  match st with
  | [a, b, c, d, e, f, g, h] =>
    let t1 := w64 (h + bigSigma1 e + ch e f g + kw.1 + kw.2)
    let t2 := w64 (bigSigma0 a + maj a b c)
    [w64 (t1 + t2), a, b, c, w64 (d + t1), e, f, g]
  | _ => st

/-- Process one 16-word block. -/
def compress (st : List Nat) (block : List Nat) : List Nat :=
  let ws := extendSchedule block 64
  let fin := (List.zip roundK ws).foldl round st
  (List.zip st fin).map (fun p => w64 (p.1 + p.2))

/-- SHA padding: append `0x80`, zeros and the 16-byte big-endian bit length. -/
def padMessage (msg : List Nat) : List Nat :=
  let z := (128 - (msg.length + 17) % 128) % 128
  msg ++ [0x80] ++ List.replicate z 0 ++ natToBytesBE 16 (msg.length * 8)

/-- Group bytes into big-endian 64-bit words. -/
def bytesToWords : List Nat → List Nat
  | b0 :: b1 :: b2 :: b3 :: b4 :: b5 :: b6 :: b7 :: rest =>
    bytesToNatBE [b0, b1, b2, b3, b4, b5, b6, b7] :: bytesToWords rest
  | _ => []

/-- Group a word list into 16-word blocks. -/
def wordsToBlocks : List Nat → List (List Nat)
  | [] => []
  | w :: rest => (w :: rest).take 16 :: wordsToBlocks ((w :: rest).drop 16)
termination_by l => l.length
decreasing_by simp [List.length_drop]; omega

/-- SHA-512/256 digest (Go `sha512.New512_256`): 32-byte output. -/
def sha512x256 (msg : List Nat) : List Nat :=
  let blocks := wordsToBlocks (bytesToWords (padMessage msg))
  let fin := blocks.foldl compress iv512x256
  ((fin.map (natToBytesBE 8)).flatten).take 32

end Sha512

/-- ASCII lower-casing of one byte. -/
def lowerByte (b : Nat) : Nat := if 65 ≤ b ∧ b ≤ 90 then b + 32 else b

/-- Modelled from the spec: the canonical-name normalizer (`dns.CanonicalName`
of the external DNS library, §4.4 "case-normalized, fully-qualified question
name"): ensure a trailing separator byte `46` (`.`), then lower-case. -/
def canonicalName (name : List Nat) : List Nat :=
  let fq := if name.getLast? = some 46 then name else name ++ [46]
  fq.map lowerByte

/-- `computeCacheKey` (src/unnamed/part_000:24-39): hash a fixed 5-byte header
(big-endian qtype, big-endian qclass, dnssec flag) followed by the canonical
question name with SHA-512/256. -/
def computeCacheKey (dnssec : Bool) (Qtype Qclass : Nat) (Name : List Nat) :
    List Nat :=
  let tmp : List Nat :=
    [Qtype / 256 % 256, Qtype % 256, Qclass / 256 % 256, Qclass % 256,
     if dnssec then 1 else 0]
  Sha512.sha512x256 (tmp ++ canonicalName Name)

/-! ## Response cache data model -/

/-- A DNS question (`dns.Question` of the external DNS library). -/
structure Question where
  name : List Nat
  qtype : Nat
  qclass : Nat
  deriving DecidableEq, Repr

/-- A DNS resource record, reduced to its header fields plus opaque rdata
(the code only ever reads `Header().Rrtype` and writes `Header().Ttl`). -/
structure DnsRR where
  rname : List Nat
  rrtype : Nat
  rrclass : Nat
  ttl : Nat
  rdata : List Nat
  deriving DecidableEq, Repr

/-- A DNS message (`dns.Msg`), reduced to the fields the cache code touches. -/
structure DnsMsg where
  id : Nat
  response : Bool
  truncated : Bool
  compress : Bool
  rcode : Nat
  question : List Question
  answer : List DnsRR
  ns : List DnsRR
  extra : List DnsRR
  deriving DecidableEq, Repr

/-- `dns.TypeOPT`. -/
def typeOPT : Nat := 41

/-- Wraparound of an integer into a signed 64-bit value (Go `int64`):
`2 ^ 63` and `2 ^ 64` written as literals. -/
def int64wrap (x : Int) : Int :=
  (x + 9223372036854775808) % 18446744073709551616 - 9223372036854775808

/-- `CachedResponse` (part_000:14-17): a cached message plus its expiration.
The Go struct embeds `*dns.Msg`, a shared pointer: the message object stored
in the cache is the very one a lookup works on, so in-place writes by a
lookup land in the store.  Operations on the model therefore return the
store's entry as it is after the call. -/
structure CachedResponse where
  msg : DnsMsg
  expiration : Int
  deriving DecidableEq, Repr

/-- Modelled from the spec: the per-query session state (§3) consumed by the
cache plugins; the Go `PluginsState` struct lives outside the provided
sources.  `stateSynth` models `state = PluginsStateSynth` (resolved by
cache); `sessionStale` models `sessionData["stale"]`. -/
structure PluginsState where
  synthResponse : Option DnsMsg
  stateSynth : Bool
  cacheHit : Bool
  sessionStale : Option DnsMsg
  deriving DecidableEq, Repr

/-- `updateTTL` (part_000:56-73): rewrite every answer and authority TTL and
every non-OPT extra TTL to the remaining whole seconds until `expiration`
(zero when already reached), truncated to `uint32`.  Times are `Int`
nanoseconds. -/
def updateTTL (msg : DnsMsg) (expiration now : Int) : DnsMsg :=
  let remain := expiration - now
  let ttl : Nat := if remain > 0 then (remain / 1000000000).toNat % 2 ^ 32 else 0
  { msg with
    answer := msg.answer.map (fun rr => { rr with ttl := ttl }),
    ns := msg.ns.map (fun rr => { rr with ttl := ttl }),
    extra := msg.extra.map
      (fun rr => if rr.rrtype ≠ typeOPT then { rr with ttl := ttl } else rr) }

/-- `PluginCache.Eval` (part_000:76-98).  `entry` is the store's entry under
the query's hash key (`none` on a miss), `queryId` the inbound message id and
`now` the clock reading.  Returns the session state and the store's entry
after the call. -/
def pluginCacheEval (ps : PluginsState) (entry : Option CachedResponse)
    (queryId : Nat) (now : Int) : PluginsState × Option CachedResponse :=
  match entry with
  | none => (ps, none)
  | some cr =>
    let synth := { cr.msg with id := queryId, response := true, compress := true }
    if now > cr.expiration then
      ({ ps with sessionStale := some synth }, some { cr with msg := synth })
    else
      let fresh := updateTTL synth cr.expiration now
      ({ ps with synthResponse := some fresh, stateSynth := true, cacheHit := true },
       some { cr with msg := fresh })

/-- `getMinTTL` (part_000:111-144), returning a Go `time.Duration`
(nanoseconds in a signed 64-bit integer). -/
def getMinTTL (msg : DnsMsg)
    (minTTL maxTTL CacheNegMinTTL CacheNegMaxTTL : Nat) : Int :=
  if (msg.rcode ≠ 0 ∧ msg.rcode ≠ 3) ∨ (msg.answer.length ≤ 0 ∧ msg.ns.length ≤ 0) then
    int64wrap ((CacheNegMinTTL : Int) * 1000000000)
  else
    let ttl0 : Nat := if msg.rcode = 0 then maxTTL else CacheNegMaxTTL
    let ttl1 : Nat :=
      if msg.answer.length > 0 then
        msg.answer.foldl (fun t rr => if rr.ttl < t then rr.ttl else t) ttl0
      else
        msg.ns.foldl (fun t rr => if rr.ttl < t then rr.ttl else t) ttl0
    let ttl2 : Nat :=
      if msg.rcode = 0 then (if ttl1 < minTTL then minTTL else ttl1)
      else (if ttl1 < CacheNegMinTTL then CacheNegMinTTL else ttl1)
    int64wrap ((ttl2 : Int) * 60000000000)

/-- The §4.5 TTL policy in the spec's words, for the non-negative case: start
from the status ceiling, lower it to the least record TTL over the answer set
(or the authority set when there is no answer), then raise it to the status
floor if smaller. -/
def specMinTTL (msg : DnsMsg)
    (minTTL maxTTL CacheNegMinTTL CacheNegMaxTTL : Nat) : Nat :=
  let ceiling := if msg.rcode = 0 then maxTTL else CacheNegMaxTTL
  let floor := if msg.rcode = 0 then minTTL else CacheNegMinTTL
  let recs := if msg.answer.length > 0 then msg.answer else msg.ns
  max floor ((recs.map DnsRR.ttl).foldl min ceiling)

/-- Modelled from the spec: the bounded store contract (§3) of
`conceptions.Cache`, whose implementation is an external collaborator; the
store is modelled as an association list and its eviction policy is left
out. -/
abbrev CacheStore := List (List Nat × CachedResponse)

/-- Modelled from the spec: `Cache.Add` of the bounded store. -/
def cacheAdd (key : List Nat) (v : CachedResponse) (c : CacheStore) : CacheStore :=
  (key, v) :: c

/-- `PluginCacheResponse.Eval` (part_000:147-164).  `key` is the query's hash
key and `now` the clock reading.  Returns the store after the call, the
response message after the call (TTLs rewritten in place on insert), and the
Go `error` result (`nil` on every path). -/
def pluginCacheResponseEval (cache : CacheStore) (key : List Nat)
    (minTTL maxTTL CacheNegMinTTL CacheNegMaxTTL : Nat)
    (msg : DnsMsg) (now : Int) : CacheStore × DnsMsg × Option String :=
  if msg.rcode ≠ 0 ∧ msg.rcode ≠ 3 ∧ msg.rcode ≠ 9 then (cache, msg, none)
  else if msg.truncated then (cache, msg, none)
  else
    let ttl := getMinTTL msg minTTL maxTTL CacheNegMinTTL CacheNegMaxTTL
    let expiration := now + ttl
    let stored := updateTTL msg expiration now
    (cacheAdd key { msg := stored, expiration := expiration } cache, stored, none)

/-- `ComputeCacheKey` (part_000:19-22): keys the first entry of the question
section.  The Go code indexes `msg.Question[0]` unconditionally; the empty
section is modelled as `none` (the reachable index-out-of-range branch). -/
def ComputeCacheKey (dnssec : Bool) (msg : DnsMsg) : Option (List Nat) :=
  match msg.question with
  | [] => none
  | q :: _ => some (computeCacheKey dnssec q.qtype q.qclass q.name)

/-- A resource record with its TTL scrubbed: two records agree under
`eraseTTL` exactly when they differ at most in their TTL field. -/
def eraseTTL (rr : DnsRR) : DnsRR := { rr with ttl := 0 }

/-! ## Certificate resolver data model -/

/-- `CryptoConstruction`.  Modelled from the spec: the enum declaration lives
outside the provided sources; §3 fixes the order `Undefined <
XSalsa20Poly1305 < XChaCha20Poly1305`, higher preferred on a serial tie. -/
inductive CryptoConstruction where
  | undefinedConstruction
  | xsalsa20poly1305
  | xchacha20poly1305
  deriving DecidableEq, Repr

/-- The numeric value of the construction enum (Go compares the enum with
`<`). -/
def CryptoConstruction.toNat : CryptoConstruction → Nat
  | .undefinedConstruction => 0
  | .xsalsa20poly1305 => 1
  | .xchacha20poly1305 => 2

/-- `isDigit` (part_000:335). -/
def isDigit (b : Nat) : Bool := 48 ≤ b ∧ b ≤ 57

/-- `dddToByte` (part_000:337-339); Go `byte` arithmetic wraps mod 256. -/
def dddToByte (d0 d1 d2 : Nat) : Nat :=
  ((d0 - 48) * 100 + (d1 - 48) * 10 + (d2 - 48)) % 256

/-- The non-digit escape cases of `packTxtString`: `\t`, `\r`, `\n`, or the
escaped literal itself. -/
def escByte (c : Nat) : Nat :=
  if c = 116 then 9 else if c = 114 then 13 else if c = 110 then 10 else c

/-- The loop of `packTxtString`, with the iteration count made explicit as
structural fuel so that the definition computes by kernel reduction; every
iteration consumes at least one input byte, so fuel equal to the input
length is never exhausted. -/
def packTxtStringFuel : Nat → List Nat → List Nat
  | 0, _ => []
  | _ + 1, [] => []
  | fuel + 1, b :: rest =>
    if b = 92 then
      match rest with
      | [] => []
      | c :: c1 :: c2 :: rest3 =>
        if isDigit c ∧ isDigit c1 ∧ isDigit c2 then
          dddToByte c c1 c2 :: packTxtStringFuel fuel rest3
        else
          escByte c :: packTxtStringFuel fuel (c1 :: c2 :: rest3)
      | c :: rest2 => escByte c :: packTxtStringFuel fuel rest2
    else
      b :: packTxtStringFuel fuel rest

/-- `packTxtString` (part_000:341-368): decode the DNS TXT escaped text form;
a trailing lone backslash ends decoding silently. -/
def packTxtString (s : List Nat) : List Nat := packTxtStringFuel s.length s

/-- Modelled from the spec: the fixed certificate magic (§4.1); the constant
is declared outside the provided sources (the standard value, the bytes of
"DNSC"). -/
def CertMagic : List Nat := [68, 78, 83, 67]

/-- `CertInfo` (part_000:180-186). -/
structure CertInfo where
  serverPk : List Nat
  sharedKey : List Nat
  magicQuery : List Nat
  cryptoConstruction : CryptoConstruction
  forwardSecurity : Bool
  deriving DecidableEq, Repr

/-- `CertInfo{CryptoConstruction: UndefinedConstruction}` with Go zero values
(zero-filled arrays, false flag). -/
def initCertInfo : CertInfo :=
  { serverPk := List.replicate 32 0, sharedKey := List.replicate 32 0,
    magicQuery := List.replicate 8 0,
    cryptoConstruction := .undefinedConstruction, forwardSecurity := false }

/-- The loop state of certificate arbitration: the best-so-far `CertInfo`
and the highest serial accepted so far. -/
structure CertState where
  certInfo : CertInfo
  highestSerial : Nat
  deriving DecidableEq, Repr

def initCertState : CertState := { certInfo := initCertInfo, highestSerial := 0 }

/-- One record of the TXT answer section: a TXT record carries its
character-strings (joined by the code before decoding); any other record
type is skipped with a log. -/
inductive AnswerRR where
  | txt (txt : List (List Nat))
  | other (rrtype : Nat)
  deriving DecidableEq, Repr

/-- The `esVersion` switch (part_000:254-263). -/
def constructionOfVersion (v : Nat) : Option CryptoConstruction :=
  if v = 1 then some .xsalsa20poly1305
  else if v = 2 then some .xchacha20poly1305
  else none

/-- The ambient collaborators of certificate resolution: `verify` stands for
`ed25519.Verify pk signed signature` with the provided public key baked in;
`sharedKeyOf` for `ComputeSharedKey` with the local secret key and provider
name baked in (both are external to the provided sources); plus the
timestamp-checking switch and the clock reading `uint32(time.Now().Unix())`. -/
structure ResolverEnv where
  verify : List Nat → List Nat → Bool
  sharedKeyOf : CryptoConstruction → List Nat → List Nat
  certIgnoreTimestamp : Bool
  now : Nat

/-- The body of the certificate loop of `FetchCurrentDNSCryptCert`
(part_000:236-328), processing one answer record against the running
state. -/
def processAnswerRR (env : ResolverEnv) (st : CertState) (rr : AnswerRR) :
    CertState :=
  match rr with
  | .other _ => st
  | .txt parts =>
    let binCert := packTxtString parts.flatten
    if binCert.length < 124 then st
    else if ¬ (sliceB binCert 0 4 = CertMagic) then st
    else
      match constructionOfVersion (bytesToNatBE (sliceB binCert 4 6)) with
      | none => st
      | some cryptoConstruction =>
        let signature := sliceB binCert 8 72
        let signed := binCert.drop 72
        if env.verify signed signature = false then st
        else
          let serial := bytesToNatBE (sliceB binCert 112 116)
          let tsBegin := bytesToNatBE (sliceB binCert 116 120)
          let tsEnd := bytesToNatBE (sliceB binCert 120 124)
          if tsBegin ≥ tsEnd then st
          else
            let ttl := tsEnd - tsBegin
            let st1 : CertState :=
              { st with certInfo :=
                  { st.certInfo with forwardSecurity :=
                      if ttl > 604800 then false else true } }
            if ¬ (env.certIgnoreTimestamp = true) ∧
                (env.now > tsEnd ∨ env.now < tsBegin) then st1
            else if serial < st1.highestSerial then st1
            else if serial = st1.highestSerial ∧
                cryptoConstruction.toNat < st1.certInfo.cryptoConstruction.toNat
              then st1
            else if cryptoConstruction ≠ .xchacha20poly1305 ∧
                cryptoConstruction ≠ .xsalsa20poly1305 then st1
            else
              let serverPk := sliceB binCert 72 104
              { certInfo :=
                  { serverPk := serverPk,
                    sharedKey := env.sharedKeyOf cryptoConstruction serverPk,
                    magicQuery := sliceB binCert 104 112,
                    cryptoConstruction := cryptoConstruction,
                    forwardSecurity := st1.certInfo.forwardSecurity },
                highestSerial := serial }

/-- Whether an answer record passes every check preceding the
forward-security assignment: it is a TXT record whose decoded bytes are long
enough, carry the magic and a supported version, verify under the provider
key, and have a sane validity window. -/
def passesPreFS (env : ResolverEnv) (rr : AnswerRR) : Bool :=
  match rr with
  | .other _ => false
  | .txt parts =>
    let binCert := packTxtString parts.flatten
    decide (124 ≤ binCert.length) && decide (sliceB binCert 0 4 = CertMagic) &&
    (constructionOfVersion (bytesToNatBE (sliceB binCert 4 6))).isSome &&
    env.verify (binCert.drop 72) (sliceB binCert 8 72) &&
    decide (bytesToNatBE (sliceB binCert 116 120) <
      bytesToNatBE (sliceB binCert 120 124))

/-- Whether a TXT candidate's validity window is at most 7 days (the
forward-security condition). -/
def windowShort (rr : AnswerRR) : Bool :=
  match rr with
  | .other _ => false
  | .txt parts =>
    let binCert := packTxtString parts.flatten
    if bytesToNatBE (sliceB binCert 120 124) -
        bytesToNatBE (sliceB binCert 116 120) > 604800 then false else true

instance {α β : Type _} [DecidableEq α] [DecidableEq β] :
    DecidableEq (Except α β) := fun x y => by
  cases x with
  | error a =>
    cases y with
    | error b =>
      exact if h : a = b then .isTrue (by rw [h])
        else .isFalse (by intro hc; injection hc; contradiction)
    | ok b => exact .isFalse (by intro hc; exact Except.noConfusion hc)
  | ok a =>
    cases y with
    | error b => exact .isFalse (by intro hc; exact Except.noConfusion hc)
    | ok b =>
      exact if h : a = b then .isTrue (by rw [h])
        else .isFalse (by intro hc; injection hc; contradiction)

/-- What one relay attempt of `dnsExchange` produced: an error or the answer
records of a response, plus the `relay_f` flag (true when the attempt fell
back to a direct connection). -/
structure ExchangeOutcome where
  result : Except String (List AnswerRR)
  relay_f : Bool
  deriving DecidableEq, Repr

/-- A relay attempt that completed without falling back to direct: exactly
the attempts accumulated into the working set. -/
def usableRelay (o : ExchangeOutcome) : Bool :=
  (match o.result with | .ok _ => true | .error _ => false) && !o.relay_f

/-- One iteration of the relay loop (part_000:209-220): `in` and `err` are
reassigned on every attempt; the working set collects the indices of usable
attempts. -/
def relayLoopStep (acc : List Nat × Option String × Option (List AnswerRR))
    (p : Nat × ExchangeOutcome) :
    List Nat × Option String × Option (List AnswerRR) :=
  match p.2.result with
  | .error e => (acc.1, some e, none)
  | .ok ans =>
    ((if p.2.relay_f = false then acc.1 ++ [p.1] else acc.1), none, some ans)

/-- The relay loop over all attempts, in order, starting from empty working
set and nil `in`/`err`. -/
def relayLoop (outcomes : List ExchangeOutcome) :
    List Nat × Option String × Option (List AnswerRR) :=
  (outcomes.enum).foldl relayLoopStep ([], none, none)

/-- The tail of `FetchCurrentDNSCryptCert` after the exchange phase
(part_000:228-332): propagate the last attempt's error, otherwise fold the
certificate loop over the last response's answer records and fail when no
candidate was accepted.  (`lastIn` is present whenever `lastErr` is absent;
the `getD` default is dead code matching the Go nil-pointer read.) -/
def finishFetch (env : ResolverEnv) (ws : List Nat) (lastErr : Option String)
    (lastIn : Option (List AnswerRR)) : Except String (List Nat × CertInfo) :=
  match lastErr with
  | some e => .error e
  | none =>
    let st := (lastIn.getD []).foldl (processAnswerRR env) initCertState
    if st.certInfo.cryptoConstruction = .undefinedConstruction then
      .error "No useable certificate found"
    else
      .ok (ws, st.certInfo)

/-- `FetchCurrentDNSCryptCert` (part_000:188-333) with the network supplied
as data: `relayOutcomes` lists what `dnsExchange` returns per relay (in
order) and `directOutcome` what the single direct exchange returns when the
relay list is empty; `pkLen` is the provided public key's length. -/
def FetchCurrentDNSCryptCert (env : ResolverEnv) (pkLen : Nat)
    (relayOutcomes : List ExchangeOutcome) (directOutcome : ExchangeOutcome) :
    Except String (List Nat × CertInfo) :=
  if pkLen ≠ 32 then .error "Invalid public key length"
  else if relayOutcomes.length > 0 then
    let r := relayLoop relayOutcomes
    if r.1.length < 1 then .error "all relays failed"
    else finishFetch env r.1 r.2.1 r.2.2
  else
    match directOutcome.result with
    | .error e => finishFetch env [] (some e) none
    | .ok ans => finishFetch env [] none (some ans)

/-- A fully permissive oracle environment for concrete runs: every signature
verifies and the shared key is the server public key itself; timestamp
checking is disabled. -/
def env0 : ResolverEnv :=
  { verify := fun _ _ => true, sharedKeyOf := fun _ pk => pk,
    certIgnoreTimestamp := true, now := 0 }

/-- A concrete certificate: serial 2, version 1 (XSalsa20Poly1305), server
key and magic query all-1 bytes, window [1000, 87400] (one day). -/
def certBytesA : List Nat :=
  CertMagic ++ [0, 1] ++ [0, 0] ++ List.replicate 64 0 ++
    List.replicate 32 1 ++ List.replicate 8 1 ++
    [0, 0, 0, 2] ++ [0, 0, 3, 232] ++ [0, 1, 85, 104]

/-- A concrete certificate: serial 1, version 1, server key and magic query
all-2 bytes, window [1000, 692200] (eight days, longer than 7 days). -/
def certBytesB : List Nat :=
  CertMagic ++ [0, 1] ++ [0, 0] ++ List.replicate 64 0 ++
    List.replicate 32 2 ++ List.replicate 8 2 ++
    [0, 0, 0, 1] ++ [0, 0, 3, 232] ++ [0, 10, 143, 232]

/-- A concrete certificate: serial 2 and version 1 like `certBytesA` but
with server key and magic query all-3 bytes. -/
def certBytesA2 : List Nat :=
  CertMagic ++ [0, 1] ++ [0, 0] ++ List.replicate 64 0 ++
    List.replicate 32 3 ++ List.replicate 8 3 ++
    [0, 0, 0, 2] ++ [0, 0, 3, 232] ++ [0, 1, 85, 104]

theorem lowerByte_eq_dot {b : Nat} : lowerByte b = 46 ↔ b = 46 := by
  unfold lowerByte; split <;> omega

theorem getLast?_append_singleton {α : Type _} (l : List α) (a : α) :
    (l ++ [a]).getLast? = some a := by
  induction l with
  | nil => rfl
  | cons x xs ih =>
    cases xs with
    | nil => rfl
    | cons y ys => simpa using ih

theorem getLast?_map_lowerByte (l : List Nat) :
    (l.map lowerByte).getLast? = l.getLast?.map lowerByte := by
  induction l with
  | nil => rfl
  | cons x xs ih =>
    cases xs with
    | nil => rfl
    | cons y ys => simpa using ih

theorem canonicalName_eq_of_lower_eq {n1 n2 : List Nat}
    (h : n1.map lowerByte = n2.map lowerByte) :
    canonicalName n1 = canonicalName n2 := by
  have hl : n1.getLast?.map lowerByte = n2.getLast?.map lowerByte := by
    rw [← getLast?_map_lowerByte, ← getLast?_map_lowerByte, h]
  have hiff : n1.getLast? = some 46 ↔ n2.getLast? = some 46 := by
    cases h1 : n1.getLast? with
    | none =>
      cases h2 : n2.getLast? with
      | none => simp
      | some b => rw [h1, h2] at hl; simp at hl
    | some a =>
      cases h2 : n2.getLast? with
      | none => rw [h1, h2] at hl; simp at hl
      | some b =>
        rw [h1, h2] at hl
        simp only [Option.map_some'] at hl
        have hab : lowerByte a = lowerByte b := by injection hl
        simp only [Option.some.injEq]
        constructor
        · rintro rfl
          exact lowerByte_eq_dot.mp (hab.symm.trans (by decide))
        · rintro rfl
          exact lowerByte_eq_dot.mp (hab.trans (by decide))
  by_cases hc : n1.getLast? = some 46
  · have hc2 : n2.getLast? = some 46 := hiff.mp hc
    unfold canonicalName
    rw [if_pos hc, if_pos hc2]
    exact h
  · have hc2 : ¬ n2.getLast? = some 46 := fun hx => hc (hiff.mpr hx)
    unfold canonicalName
    rw [if_neg hc, if_neg hc2]
    simp only [List.map_append, h]

theorem canonicalName_append_dot {n : List Nat} (h : n.getLast? ≠ some 46) :
    canonicalName (n ++ [46]) = canonicalName n := by
  unfold canonicalName
  rw [if_pos (getLast?_append_singleton n 46), if_neg h]

/-- C7: the cache key is deterministic in (dnssec, qtype, qclass, name), and
two invocations whose names differ only in letter case, or only in the
presence of a trailing separator byte, yield identical keys. -/
theorem computeCacheKey_normalized (d : Bool) (qt qc : Nat) (n n1 n2 : List Nat) :
    (∀ (d' : Bool) (qt' qc' : Nat) (n' : List Nat),
        d = d' → qt = qt' → qc = qc' → n = n' →
        computeCacheKey d qt qc n = computeCacheKey d' qt' qc' n') ∧
    (n1.map lowerByte = n2.map lowerByte →
        computeCacheKey d qt qc n1 = computeCacheKey d qt qc n2) ∧
    (n.getLast? ≠ some 46 →
        computeCacheKey d qt qc (n ++ [46]) = computeCacheKey d qt qc n) := by
  refine ⟨?_, ?_, ?_⟩
  · rintro d' qt' qc' n' rfl rfl rfl rfl; rfl
  · intro h
    unfold computeCacheKey
    rw [canonicalName_eq_of_lower_eq h]
  · intro h
    unfold computeCacheKey
    rw [canonicalName_append_dot h]

/-- Witness for C7 at concrete inputs: `"A"` vs `"a"`, and `"e"` vs `"e."`. -/
theorem computeCacheKey_normalized_witness :
    computeCacheKey false 16 1 [65] = computeCacheKey false 16 1 [97] ∧
    computeCacheKey false 16 1 ([101] ++ [46]) = computeCacheKey false 16 1 [101] :=
  ⟨(computeCacheKey_normalized false 16 1 [] [65] [97]).2.1 (by decide),
   (computeCacheKey_normalized false 16 1 [101] [] []).2.2 (by decide)⟩

/-! ## Cache theorems -/

/-- C10: the cache-key entry point keys the first question; it is total on
every message with a non-empty question section, and the empty section
reaches the index-out-of-range branch (modelled as `none`). -/
theorem ComputeCacheKey_first_question (d : Bool) (msg : DnsMsg) :
    (∀ q rest, msg.question = q :: rest →
        ComputeCacheKey d msg = some (computeCacheKey d q.qtype q.qclass q.name)) ∧
    (msg.question ≠ [] → (ComputeCacheKey d msg).isSome) ∧
    (msg.question = [] → ComputeCacheKey d msg = none) := by
  unfold ComputeCacheKey
  refine ⟨?_, ?_, ?_⟩
  · intro q rest hq
    rw [hq]
  · intro hne
    cases hq : msg.question with
    | nil => exact absurd hq hne
    | cons q rest => rfl
  · intro hq
    rw [hq]

/-- Witness for C10 at a one-question message and at an empty one. -/
theorem ComputeCacheKey_first_question_witness :
    ComputeCacheKey true
        { id := 0, response := false, truncated := false, compress := false,
          rcode := 0, question := [⟨[97], 16, 1⟩], answer := [], ns := [],
          extra := [] } = some (computeCacheKey true 16 1 [97]) ∧
    ComputeCacheKey true
        { id := 0, response := false, truncated := false, compress := false,
          rcode := 0, question := [], answer := [], ns := [], extra := [] } =
      none :=
  ⟨(ComputeCacheKey_first_question true _).1 ⟨[97], 16, 1⟩ [] rfl,
   (ComputeCacheKey_first_question true _).2.2 rfl⟩

/-- C9: a hit on an expired entry behaves as a miss on the live path — the
synthesized-response slot, the resolved-by-cache state and the cache-hit flag
all keep their prior values — while the expired message is exposed on the
stale side channel, never as the live answer. -/
theorem pluginCacheEval_expired_is_miss (ps : PluginsState) (cr : CachedResponse)
    (queryId : Nat) (now : Int) (h : cr.expiration < now) :
    (pluginCacheEval ps (some cr) queryId now).1.synthResponse = ps.synthResponse ∧
    (pluginCacheEval ps (some cr) queryId now).1.stateSynth = ps.stateSynth ∧
    (pluginCacheEval ps (some cr) queryId now).1.cacheHit = ps.cacheHit ∧
    (pluginCacheEval ps (some cr) queryId now).1.sessionStale =
      some { cr.msg with id := queryId, response := true, compress := true } := by
  simp only [pluginCacheEval]
  rw [if_pos h]
  exact ⟨rfl, rfl, rfl, rfl⟩

/-- Witness for C9: an entry that expired at time 100, looked up at 200. -/
theorem pluginCacheEval_expired_is_miss_witness :
    (pluginCacheEval ⟨none, false, false, none⟩
        (some ⟨{ id := 7, response := false, truncated := false, compress := false,
                 rcode := 0, question := [], answer := [], ns := [], extra := [] },
               100⟩) 9 200).1.synthResponse = none ∧
    (pluginCacheEval ⟨none, false, false, none⟩
        (some ⟨{ id := 7, response := false, truncated := false, compress := false,
                 rcode := 0, question := [], answer := [], ns := [], extra := [] },
               100⟩) 9 200).1.stateSynth = false ∧
    (pluginCacheEval ⟨none, false, false, none⟩
        (some ⟨{ id := 7, response := false, truncated := false, compress := false,
                 rcode := 0, question := [], answer := [], ns := [], extra := [] },
               100⟩) 9 200).1.cacheHit = false ∧
    (pluginCacheEval ⟨none, false, false, none⟩
        (some ⟨{ id := 7, response := false, truncated := false, compress := false,
                 rcode := 0, question := [], answer := [], ns := [], extra := [] },
               100⟩) 9 200).1.sessionStale =
      some { id := 9, response := true, truncated := false, compress := true,
             rcode := 0, question := [], answer := [], ns := [], extra := [] } :=
  pluginCacheEval_expired_is_miss ⟨none, false, false, none⟩ _ 9 200 (by decide)

/-- C3 counterexample: a lookup does mutate the stored message beyond its
TTL fields — on an expired entry (where no TTL is rewritten at all) the
stored message's id changes from 1 to the query id 2 and its response and
compression flags are forced to true. -/
theorem pluginCacheEval_mutates_stored_identity :
    ((pluginCacheEval ⟨none, false, false, none⟩
        (some ⟨{ id := 1, response := false, truncated := false, compress := false,
                 rcode := 0, question := [], answer := [], ns := [], extra := [] },
               100⟩) 2 200).2.map
        (fun cr => (cr.msg.id, cr.msg.response, cr.msg.compress))) =
      some (2, true, true) := by decide

/-- C3 amended: a lookup rewrites, in the store, exactly the resource-record
TTL fields (on fresh hits only) and the message identity fields — the id
becomes the query id and the response and compression flags become true on
every hit, expired ones included; every other stored field is unchanged. -/
theorem pluginCacheEval_store_frame (ps : PluginsState) (cr : CachedResponse)
    (queryId : Nat) (now : Int) :
    ∃ cr', (pluginCacheEval ps (some cr) queryId now).2 = some cr' ∧
      cr'.expiration = cr.expiration ∧
      cr'.msg.id = queryId ∧ cr'.msg.response = true ∧ cr'.msg.compress = true ∧
      cr'.msg.truncated = cr.msg.truncated ∧ cr'.msg.rcode = cr.msg.rcode ∧
      cr'.msg.question = cr.msg.question ∧
      cr'.msg.answer.map eraseTTL = cr.msg.answer.map eraseTTL ∧
      cr'.msg.ns.map eraseTTL = cr.msg.ns.map eraseTTL ∧
      cr'.msg.extra.map eraseTTL = cr.msg.extra.map eraseTTL ∧
      (now > cr.expiration →
        cr'.msg.answer = cr.msg.answer ∧ cr'.msg.ns = cr.msg.ns ∧
        cr'.msg.extra = cr.msg.extra) := by
  simp only [pluginCacheEval]
  by_cases h : now > cr.expiration
  · rw [if_pos h]
    exact ⟨_, rfl, rfl, rfl, rfl, rfl, rfl, rfl, rfl, rfl, rfl, rfl,
           fun _ => ⟨rfl, rfl, rfl⟩⟩
  · rw [if_neg h]
    refine ⟨_, rfl, rfl, rfl, rfl, rfl, rfl, rfl, rfl, ?_, ?_, ?_, fun hc => absurd hc h⟩
    · simp only [updateTTL, List.map_map]
      exact List.map_congr_left (fun rr _ => rfl)
    · simp only [updateTTL, List.map_map]
      exact List.map_congr_left (fun rr _ => rfl)
    · simp only [updateTTL, List.map_map]
      refine List.map_congr_left (fun rr _ => ?_)
      by_cases ho : rr.rrtype ≠ typeOPT <;> simp [Function.comp, eraseTTL, ho]

/-- Witness for C3's amended claim at a concrete fresh hit. -/
theorem pluginCacheEval_store_frame_witness :
    ∃ cr', (pluginCacheEval ⟨none, false, false, none⟩
        (some ⟨{ id := 1, response := false, truncated := false, compress := false,
                 rcode := 0, question := [], answer := [⟨[], 1, 1, 55, [7]⟩],
                 ns := [], extra := [] },
               5000000000⟩) 2 0).2 = some cr' ∧
      cr'.expiration = 5000000000 ∧
      cr'.msg.id = 2 ∧ cr'.msg.response = true ∧ cr'.msg.compress = true ∧
      cr'.msg.truncated = false ∧ cr'.msg.rcode = 0 ∧
      cr'.msg.question = [] ∧
      cr'.msg.answer.map eraseTTL = [eraseTTL ⟨[], 1, 1, 55, [7]⟩] ∧
      cr'.msg.ns.map eraseTTL = [] ∧
      cr'.msg.extra.map eraseTTL = [] ∧
      ((0 : Int) > 5000000000 →
        cr'.msg.answer = [⟨[], 1, 1, 55, [7]⟩] ∧ cr'.msg.ns = [] ∧
        cr'.msg.extra = []) :=
  pluginCacheEval_store_frame ⟨none, false, false, none⟩
    ⟨{ id := 1, response := false, truncated := false, compress := false,
       rcode := 0, question := [], answer := [⟨[], 1, 1, 55, [7]⟩],
       ns := [], extra := [] }, 5000000000⟩ 2 0

/-- C8: insertion caches only eligible responses — an entry is created
exactly when the rcode is success (0), name-error (3) or not-authoritative
(9) and the response is not truncated; otherwise the store and the message
are untouched; and no path returns an observable error. -/
theorem pluginCacheResponseEval_insert_gate (cache : CacheStore) (key : List Nat)
    (minTTL maxTTL negMin negMax : Nat) (msg : DnsMsg) (now : Int) :
    (pluginCacheResponseEval cache key minTTL maxTTL negMin negMax msg now).2.2 =
      none ∧
    (¬ ((msg.rcode = 0 ∨ msg.rcode = 3 ∨ msg.rcode = 9) ∧ msg.truncated = false) →
      (pluginCacheResponseEval cache key minTTL maxTTL negMin negMax msg now).1 =
        cache ∧
      (pluginCacheResponseEval cache key minTTL maxTTL negMin negMax msg now).2.1 =
        msg) ∧
    ((msg.rcode = 0 ∨ msg.rcode = 3 ∨ msg.rcode = 9) ∧ msg.truncated = false →
      (pluginCacheResponseEval cache key minTTL maxTTL negMin negMax msg now).1 =
        cacheAdd key
          ⟨updateTTL msg (now + getMinTTL msg minTTL maxTTL negMin negMax) now,
           now + getMinTTL msg minTTL maxTTL negMin negMax⟩ cache) := by
  unfold pluginCacheResponseEval
  by_cases h1 : msg.rcode ≠ 0 ∧ msg.rcode ≠ 3 ∧ msg.rcode ≠ 9
  · rw [if_pos h1]
    refine ⟨rfl, fun _ => ⟨rfl, rfl⟩, fun he => ?_⟩
    exact absurd he.1 (by omega)
  · rw [if_neg h1]
    by_cases h2 : msg.truncated = true
    · rw [if_pos h2]
      refine ⟨rfl, fun _ => ⟨rfl, rfl⟩, fun he => ?_⟩
      rw [he.2] at h2
      exact absurd h2 Bool.false_ne_true
    · rw [if_neg h2]
      have h2' : msg.truncated = false := by
        cases hb : msg.truncated
        · rfl
        · exact absurd hb h2
      refine ⟨rfl, fun hne => absurd ⟨by omega, h2'⟩ hne, fun _ => rfl⟩

/-- Witness for C8: a truncated success response and a Refused response leave
the store untouched without error, while an eligible success response creates
the entry. -/
theorem pluginCacheResponseEval_insert_gate_witness :
    ((pluginCacheResponseEval [] [1] 60 600 60 600
        { id := 0, response := true, truncated := true, compress := false,
          rcode := 0, question := [], answer := [], ns := [], extra := [] } 0).1 =
        [] ∧
     (pluginCacheResponseEval [] [1] 60 600 60 600
        { id := 0, response := true, truncated := true, compress := false,
          rcode := 0, question := [], answer := [], ns := [], extra := [] } 0).2.1 =
        { id := 0, response := true, truncated := true, compress := false,
          rcode := 0, question := [], answer := [], ns := [], extra := [] }) ∧
    ((pluginCacheResponseEval [] [1] 60 600 60 600
        { id := 0, response := true, truncated := false, compress := false,
          rcode := 5, question := [], answer := [], ns := [], extra := [] } 0).1 =
        [] ∧
     (pluginCacheResponseEval [] [1] 60 600 60 600
        { id := 0, response := true, truncated := false, compress := false,
          rcode := 5, question := [], answer := [], ns := [], extra := [] } 0).2.1 =
        { id := 0, response := true, truncated := false, compress := false,
          rcode := 5, question := [], answer := [], ns := [], extra := [] }) ∧
    (pluginCacheResponseEval [] [1] 60 600 60 600
        { id := 0, response := true, truncated := false, compress := false,
          rcode := 0, question := [], answer := [], ns := [], extra := [] } 0).1 =
      cacheAdd [1]
        ⟨updateTTL
            { id := 0, response := true, truncated := false, compress := false,
              rcode := 0, question := [], answer := [], ns := [], extra := [] }
            (0 + getMinTTL
              { id := 0, response := true, truncated := false, compress := false,
                rcode := 0, question := [], answer := [], ns := [], extra := [] }
              60 600 60 600) 0,
         0 + getMinTTL
            { id := 0, response := true, truncated := false, compress := false,
              rcode := 0, question := [], answer := [], ns := [], extra := [] }
            60 600 60 600⟩ [] :=
  ⟨(pluginCacheResponseEval_insert_gate [] [1] 60 600 60 600 _ 0).2.1 (by decide),
   (pluginCacheResponseEval_insert_gate [] [1] 60 600 60 600 _ 0).2.1 (by decide),
   (pluginCacheResponseEval_insert_gate [] [1] 60 600 60 600 _ 0).2.2 (by decide)⟩

theorem foldl_min_ttl (l : List DnsRR) (t0 : Nat) :
    l.foldl (fun t rr => if rr.ttl < t then rr.ttl else t) t0 =
      (l.map DnsRR.ttl).foldl min t0 := by
  induction l generalizing t0 with
  | nil => rfl
  | cons x xs ih =>
    simp only [List.foldl_cons, List.map_cons]
    rw [ih]
    have hx : (if x.ttl < t0 then x.ttl else t0) = min t0 x.ttl := by
      rw [Nat.min_def]
      split <;> split <;> omega
    rw [hx]

theorem clamp_floor_eq_max (x f : Nat) : (if x < f then f else x) = max f x := by
  rw [Nat.max_def]
  split <;> split <;> omega

/-- C6: `getMinTTL` computes the §4.5 policy: a negative response (rcode
neither success nor name-error, or no answer and no authority records) gives
the configured negative minimum floor directly (as seconds, unclamped), and
any other response gives the record-derived value clamped below the status
ceiling and above the status floor (as minutes); in particular a success
response with answer TTLs [50, 10, 300], floor 0 and a large ceiling gives
the numeric TTL 10. -/
theorem getMinTTL_follows_spec (msg : DnsMsg) (minTTL maxTTL negMin negMax : Nat) :
    (getMinTTL msg minTTL maxTTL negMin negMax =
      if (msg.rcode ≠ 0 ∧ msg.rcode ≠ 3) ∨ (msg.answer = [] ∧ msg.ns = []) then
        int64wrap ((negMin : Int) * 1000000000)
      else
        int64wrap ((specMinTTL msg minTTL maxTTL negMin negMax : Int) *
          60000000000)) ∧
    getMinTTL
        { id := 0, response := true, truncated := false, compress := false,
          rcode := 0, question := [],
          answer := [⟨[], 1, 1, 50, []⟩, ⟨[], 1, 1, 10, []⟩, ⟨[], 1, 1, 300, []⟩],
          ns := [], extra := [] } 0 4294967295 5 600 =
      int64wrap ((10 : Int) * 60000000000) := by
  constructor
  · simp only [getMinTTL, specMinTTL]
    by_cases hneg : (msg.rcode ≠ 0 ∧ msg.rcode ≠ 3) ∨
        (msg.answer.length ≤ 0 ∧ msg.ns.length ≤ 0)
    · have hneg2 : (msg.rcode ≠ 0 ∧ msg.rcode ≠ 3) ∨
          (msg.answer = [] ∧ msg.ns = []) := by
        rcases hneg with h | ⟨ha, hb⟩
        · exact Or.inl h
        · exact Or.inr ⟨List.length_eq_zero.mp (Nat.le_zero.mp ha),
                        List.length_eq_zero.mp (Nat.le_zero.mp hb)⟩
      rw [if_pos hneg, if_pos hneg2]
    · have hneg2 : ¬ ((msg.rcode ≠ 0 ∧ msg.rcode ≠ 3) ∨
          (msg.answer = [] ∧ msg.ns = [])) := by
        intro hc
        apply hneg
        rcases hc with h | ⟨ha, hb⟩
        · exact Or.inl h
        · exact Or.inr ⟨by rw [ha]; exact Nat.le_refl 0,
                        by rw [hb]; exact Nat.le_refl 0⟩
      rw [if_neg hneg, if_neg hneg2]
      by_cases hrc : msg.rcode = 0 <;> by_cases hans : msg.answer.length > 0 <;>
        simp only [hrc, hans, reduceIte] <;>
        rw [foldl_min_ttl, clamp_floor_eq_max]
  · rfl

/-! ## Certificate resolver theorems -/

theorem processAnswerRR_malformed_eq (env : ResolverEnv) (st : CertState)
    (parts : List (List Nat))
    (h : (packTxtString parts.flatten).length < 124 ∨
         ¬ (sliceB (packTxtString parts.flatten) 0 4 = CertMagic) ∨
         env.verify ((packTxtString parts.flatten).drop 72)
           (sliceB (packTxtString parts.flatten) 8 72) = false) :
    processAnswerRR env st (.txt parts) = st := by
  simp only [processAnswerRR]
  rcases h with h | h | h
  · rw [if_pos h]
  · by_cases hl : (packTxtString parts.flatten).length < 124
    · rw [if_pos hl]
    · rw [if_neg hl, if_pos h]
  · by_cases hl : (packTxtString parts.flatten).length < 124
    · rw [if_pos hl]
    · rw [if_neg hl]
      by_cases hm : sliceB (packTxtString parts.flatten) 0 4 = CertMagic
      · rw [if_neg (not_not_intro hm)]
        cases hv : constructionOfVersion
            (bytesToNatBE (sliceB (packTxtString parts.flatten) 4 6)) with
        | none => simp only [hv]
        | some cc =>
          simp only [hv]
          rw [if_pos h]
      · rw [if_pos hm]

/-- C5: a TXT candidate whose decoded form is shorter than 124 bytes, or
whose first 4 bytes differ from the certificate magic, or whose signature
does not verify, is never selected: processing it leaves the state (best
`CertInfo` and highest serial) unchanged — its serial is never even read —
and the overall resolution outcome is as if the candidate were absent. -/
theorem processAnswerRR_rejects_malformed (env : ResolverEnv) (st : CertState)
    (parts : List (List Nat))
    (h : (packTxtString parts.flatten).length < 124 ∨
         ¬ (sliceB (packTxtString parts.flatten) 0 4 = CertMagic) ∨
         env.verify ((packTxtString parts.flatten).drop 72)
           (sliceB (packTxtString parts.flatten) 8 72) = false) :
    processAnswerRR env st (.txt parts) = st ∧
    (∀ (ws : List Nat) (l1 l2 : List AnswerRR),
      finishFetch env ws none (some (l1 ++ .txt parts :: l2)) =
        finishFetch env ws none (some (l1 ++ l2))) := by
  refine ⟨processAnswerRR_malformed_eq env st parts h, ?_⟩
  intro ws l1 l2
  unfold finishFetch
  simp only [Option.getD]
  rw [List.foldl_append, List.foldl_cons,
    processAnswerRR_malformed_eq env _ parts h, ← List.foldl_append]

/-- Witness for C5: a 3-byte candidate is ignored by arbitration and by the
whole resolution. -/
theorem processAnswerRR_rejects_malformed_witness :
    processAnswerRR env0 initCertState (.txt [[1, 2, 3]]) = initCertState ∧
    finishFetch env0 [5] none
        (some ([AnswerRR.other 1] ++ .txt [[1, 2, 3]] :: [.txt [certBytesA]])) =
      finishFetch env0 [5] none (some ([AnswerRR.other 1] ++ [.txt [certBytesA]])) :=
  ⟨(processAnswerRR_rejects_malformed env0 initCertState [[1, 2, 3]]
      (Or.inl (by decide))).1,
   (processAnswerRR_rejects_malformed env0 initCertState [[1, 2, 3]]
      (Or.inl (by decide))).2 [5] [.other 1] [.txt [certBytesA]]⟩

set_option maxRecDepth 40000 in
/-- C1 counterexample: with the best-so-far set by a certificate of serial 2
and construction XSalsa20Poly1305, an otherwise-valid candidate with the
same serial 2 and the same (not strictly higher) construction is accepted
and replaces the best `CertInfo`: the magic query becomes the new
candidate's all-3 bytes and the server key changes likewise, where the
claim requires the state to be left unchanged. -/
theorem processAnswerRR_equal_serial_counterexample :
    (processAnswerRR env0 initCertState (.txt [certBytesA])).highestSerial = 2 ∧
    (processAnswerRR env0 initCertState (.txt [certBytesA])).certInfo.cryptoConstruction =
      .xsalsa20poly1305 ∧
    (processAnswerRR env0 initCertState (.txt [certBytesA])).certInfo.magicQuery =
      List.replicate 8 1 ∧
    bytesToNatBE (sliceB certBytesA2 112 116) = 2 ∧
    constructionOfVersion (bytesToNatBE (sliceB certBytesA2 4 6)) =
      some .xsalsa20poly1305 ∧
    passesPreFS env0 (.txt [certBytesA2]) = true ∧
    (processAnswerRR env0 (processAnswerRR env0 initCertState (.txt [certBytesA]))
        (.txt [certBytesA2])).certInfo.magicQuery = List.replicate 8 3 ∧
    (processAnswerRR env0 (processAnswerRR env0 initCertState (.txt [certBytesA]))
        (.txt [certBytesA2])).certInfo.serverPk = List.replicate 32 3 := by
  decide

set_option maxRecDepth 40000 in
/-- C2 counterexample: resolving [certA (serial 2, 1-day window), certB
(serial 1, 8-day window)] succeeds with certA as the winning certificate
(its all-1 server key and serial 2 are returned), whose validity window is
at most 7 days, yet the returned `ForwardSecurity` is false — it was
overwritten by the losing candidate processed after the winner. -/
theorem fetchCert_forward_security_counterexample :
    FetchCurrentDNSCryptCert env0 32 []
        ⟨.ok [.txt [certBytesA], .txt [certBytesB]], true⟩ =
      .ok ([], { serverPk := List.replicate 32 1,
                 sharedKey := List.replicate 32 1,
                 magicQuery := List.replicate 8 1,
                 cryptoConstruction := .xsalsa20poly1305,
                 forwardSecurity := false }) ∧
    windowShort (.txt [certBytesA]) = true ∧
    bytesToNatBE (sliceB certBytesA 112 116) = 2 ∧
    bytesToNatBE (sliceB certBytesB 112 116) = 1 := by
  decide

set_option maxRecDepth 40000 in
/-- C4 counterexample: with two relays — the first usable, the second
failing — the resolution fails with the second relay's exchange error even
though a relay accumulated into the usable set, where the claim requires it
not to fail at the exchange stage. -/
theorem fetchCert_last_relay_error_counterexample :
    usableRelay ⟨.ok [], false⟩ = true ∧
    FetchCurrentDNSCryptCert env0 32
        [⟨.ok [], false⟩, ⟨.error "boom", true⟩] ⟨.ok [], true⟩ =
      .error "boom" := by
  decide

theorem passesPreFS_txt (env : ResolverEnv) (parts : List (List Nat)) :
    passesPreFS env (.txt parts) = true ↔
      (124 ≤ (packTxtString parts.flatten).length ∧
       sliceB (packTxtString parts.flatten) 0 4 = CertMagic ∧
       (constructionOfVersion
         (bytesToNatBE (sliceB (packTxtString parts.flatten) 4 6))).isSome = true ∧
       env.verify ((packTxtString parts.flatten).drop 72)
         (sliceB (packTxtString parts.flatten) 8 72) = true ∧
       bytesToNatBE (sliceB (packTxtString parts.flatten) 116 120) <
         bytesToNatBE (sliceB (packTxtString parts.flatten) 120 124)) := by
  simp [passesPreFS, Bool.and_eq_true, decide_eq_true_eq, and_assoc]

theorem processAnswerRR_forwardSecurity (env : ResolverEnv) (st : CertState)
    (rr : AnswerRR) :
    (processAnswerRR env st rr).certInfo.forwardSecurity =
      if passesPreFS env rr = true then windowShort rr
      else st.certInfo.forwardSecurity := by
  cases rr with
  | other t => rfl
  | txt parts =>
    by_cases hp : passesPreFS env (.txt parts) = true
    · rw [if_pos hp]
      obtain ⟨h1, h2, h3, h4, h5⟩ := (passesPreFS_txt env parts).mp hp
      simp only [processAnswerRR, windowShort]
      rw [if_neg (by omega)]
      rw [if_neg (not_not_intro h2)]
      cases hv : constructionOfVersion
          (bytesToNatBE (sliceB (packTxtString parts.flatten) 4 6)) with
      | none => rw [hv] at h3; simp at h3
      | some cc =>
        simp only [hv]
        rw [if_neg (by rw [h4]; decide)]
        rw [if_neg (by omega)]
        split
        · rfl
        split
        · rfl
        split
        · rfl
        split
        · rfl
        · rfl
    · rw [if_neg hp]
      have hp2 : ¬ (124 ≤ (packTxtString parts.flatten).length ∧
          sliceB (packTxtString parts.flatten) 0 4 = CertMagic ∧
          (constructionOfVersion
            (bytesToNatBE (sliceB (packTxtString parts.flatten) 4 6))).isSome = true ∧
          env.verify ((packTxtString parts.flatten).drop 72)
            (sliceB (packTxtString parts.flatten) 8 72) = true ∧
          bytesToNatBE (sliceB (packTxtString parts.flatten) 116 120) <
            bytesToNatBE (sliceB (packTxtString parts.flatten) 120 124)) :=
        fun hc => hp ((passesPreFS_txt env parts).mpr hc)
      simp only [processAnswerRR]
      by_cases hl : (packTxtString parts.flatten).length < 124
      · rw [if_pos hl]
      · rw [if_neg hl]
        by_cases hm : sliceB (packTxtString parts.flatten) 0 4 = CertMagic
        · rw [if_neg (not_not_intro hm)]
          cases hv : constructionOfVersion
              (bytesToNatBE (sliceB (packTxtString parts.flatten) 4 6)) with
          | none => simp only [hv]
          | some cc =>
            simp only [hv]
            by_cases hs : env.verify ((packTxtString parts.flatten).drop 72)
                (sliceB (packTxtString parts.flatten) 8 72) = false
            · rw [if_pos hs]
            · have hs' : env.verify ((packTxtString parts.flatten).drop 72)
                  (sliceB (packTxtString parts.flatten) 8 72) = true := by
                cases hb : env.verify ((packTxtString parts.flatten).drop 72)
                    (sliceB (packTxtString parts.flatten) 8 72)
                · exact absurd hb hs
                · rfl
              rw [if_neg hs]
              by_cases hw : bytesToNatBE (sliceB (packTxtString parts.flatten) 116 120) ≥
                  bytesToNatBE (sliceB (packTxtString parts.flatten) 120 124)
              · rw [if_pos hw]
              · exact absurd ⟨by omega, hm, by rw [hv]; rfl, hs', by omega⟩ hp2
        · rw [if_pos hm]

/-- C2 amended: on the certificate loop, the final `ForwardSecurity` flag is
the window-shortness of the last candidate that passed the decoding, magic,
version, signature and window-sanity checks — whether or not that candidate
won arbitration — and keeps its prior value when no candidate passes. -/
theorem fetchCert_forwardSecurity_last_passing (env : ResolverEnv)
    (st : CertState) (answers : List AnswerRR) :
    (answers.foldl (processAnswerRR env) st).certInfo.forwardSecurity =
      (match (answers.filter (fun rr => passesPreFS env rr)).getLast? with
       | some rr => windowShort rr
       | none => st.certInfo.forwardSecurity) := by
  induction answers using List.reverseRecOn generalizing st with
  | nil => rfl
  | append_singleton l a ih =>
    rw [List.foldl_append, List.foldl_cons, List.foldl_nil]
    rw [processAnswerRR_forwardSecurity]
    rw [List.filter_append]
    by_cases hp : passesPreFS env a = true
    · rw [if_pos hp]
      simp only [List.filter_cons, List.filter_nil, hp, if_pos]
      rw [getLast?_append_singleton]
    · rw [if_neg hp]
      have hpf : passesPreFS env a = false := by
        cases hb : passesPreFS env a
        · rfl
        · exact absurd hb hp
      simp only [List.filter_cons, List.filter_nil, hpf]
      simp only [Bool.false_eq_true, if_false, List.append_nil]
      exact ih st

theorem constructionOfVersion_supported {v : Nat} {cc : CryptoConstruction}
    (h : constructionOfVersion v = some cc) :
    cc = .xsalsa20poly1305 ∨ cc = .xchacha20poly1305 := by
  unfold constructionOfVersion at h
  split at h
  · injection h with h
    exact Or.inl h.symm
  · split at h
    · injection h with h
      exact Or.inr h.symm
    · exact absurd h (by simp)

/-- C1 amended: at equal serial, an otherwise-valid candidate is skipped —
leaving the best `CertInfo`'s server key, shared key, magic query and
construction and the highest serial unchanged (only the forward-security
flag is rewritten) — exactly when its construction is strictly lower than
the accepted one; a candidate whose construction is higher **or equal**
replaces the accepted `CertInfo` with its own material. -/
theorem processAnswerRR_equal_serial (env : ResolverEnv) (st : CertState)
    (parts : List (List Nat)) (cc : CryptoConstruction)
    (hlen : 124 ≤ (packTxtString parts.flatten).length)
    (hmagic : sliceB (packTxtString parts.flatten) 0 4 = CertMagic)
    (hver : constructionOfVersion
      (bytesToNatBE (sliceB (packTxtString parts.flatten) 4 6)) = some cc)
    (hsig : env.verify ((packTxtString parts.flatten).drop 72)
      (sliceB (packTxtString parts.flatten) 8 72) = true)
    (hwin : bytesToNatBE (sliceB (packTxtString parts.flatten) 116 120) <
      bytesToNatBE (sliceB (packTxtString parts.flatten) 120 124))
    (hts : env.certIgnoreTimestamp = true ∨
      (bytesToNatBE (sliceB (packTxtString parts.flatten) 116 120) ≤ env.now ∧
       env.now ≤ bytesToNatBE (sliceB (packTxtString parts.flatten) 120 124)))
    (hserial : bytesToNatBE (sliceB (packTxtString parts.flatten) 112 116) =
      st.highestSerial) :
    (cc.toNat < st.certInfo.cryptoConstruction.toNat →
      processAnswerRR env st (.txt parts) =
        { st with certInfo :=
            { st.certInfo with forwardSecurity := windowShort (.txt parts) } }) ∧
    (st.certInfo.cryptoConstruction.toNat ≤ cc.toNat →
      processAnswerRR env st (.txt parts) =
        { certInfo :=
            { serverPk := sliceB (packTxtString parts.flatten) 72 104,
              sharedKey := env.sharedKeyOf cc
                (sliceB (packTxtString parts.flatten) 72 104),
              magicQuery := sliceB (packTxtString parts.flatten) 104 112,
              cryptoConstruction := cc,
              forwardSecurity := windowShort (.txt parts) },
          highestSerial := st.highestSerial }) := by
  have hts' : ¬ (¬ (env.certIgnoreTimestamp = true) ∧
      (env.now > bytesToNatBE (sliceB (packTxtString parts.flatten) 120 124) ∨
       env.now < bytesToNatBE (sliceB (packTxtString parts.flatten) 116 120))) := by
    rcases hts with h | ⟨h1, h2⟩
    · exact fun hc => hc.1 h
    · rintro ⟨_, h3 | h3⟩ <;> omega
  constructor <;> intro hcmp <;>
    simp only [processAnswerRR, windowShort] <;>
    rw [if_neg (by omega), if_neg (not_not_intro hmagic)] <;>
    simp only [hver] <;>
    rw [if_neg (by rw [hsig]; decide), if_neg (by omega), if_neg hts',
      if_neg (by simp only [hserial]; omega)]
  · rw [if_pos ⟨hserial, hcmp⟩]
  · rw [if_neg (fun hc => absurd hc.2 (by omega))]
    rw [if_neg (by
      rcases constructionOfVersion_supported hver with rfl | rfl
      · exact fun hc => hc.2 rfl
      · exact fun hc => hc.1 rfl)]
    rw [hserial]

set_option maxRecDepth 40000 in
/-- Witness for C1's amended claim: with the best-so-far set by `certBytesA`
(serial 2, XSalsa20Poly1305), the equal-serial, equal-construction candidate
`certBytesA2` is re-accepted and its material replaces the best. -/
theorem processAnswerRR_equal_serial_witness :
    processAnswerRR env0 (processAnswerRR env0 initCertState (.txt [certBytesA]))
        (.txt [certBytesA2]) =
      { certInfo :=
          { serverPk := sliceB (packTxtString [certBytesA2].flatten) 72 104,
            sharedKey := env0.sharedKeyOf .xsalsa20poly1305
              (sliceB (packTxtString [certBytesA2].flatten) 72 104),
            magicQuery := sliceB (packTxtString [certBytesA2].flatten) 104 112,
            cryptoConstruction := .xsalsa20poly1305,
            forwardSecurity := windowShort (.txt [certBytesA2]) },
        highestSerial :=
          (processAnswerRR env0 initCertState (.txt [certBytesA])).highestSerial } :=
  (processAnswerRR_equal_serial env0
      (processAnswerRR env0 initCertState (.txt [certBytesA]))
      [certBytesA2] .xsalsa20poly1305
      (by decide) (by decide) (by decide) (by decide) (by decide)
      (Or.inl (by decide)) (by decide)).2 (by decide)

theorem enumFrom_append {α : Type _} (l1 l2 : List α) (k : Nat) :
    (l1 ++ l2).enumFrom k = l1.enumFrom k ++ l2.enumFrom (k + l1.length) := by
  induction l1 generalizing k with
  | nil => simp [List.enumFrom]
  | cons x xs ih =>
    have hk : k + 1 + xs.length = k + (xs.length + 1) := by omega
    show (k, x) :: (xs ++ l2).enumFrom (k + 1) =
      (k, x) :: (xs.enumFrom (k + 1) ++ l2.enumFrom (k + (xs.length + 1)))
    rw [ih, hk]

theorem snd_mem_of_mem_enumFrom {α : Type _} {l : List α} {k : Nat}
    {p : Nat × α} (hp : p ∈ l.enumFrom k) : p.2 ∈ l := by
  induction l generalizing k with
  | nil => simp [List.enumFrom] at hp
  | cons x xs ih =>
    simp only [List.enumFrom, List.mem_cons] at hp
    rcases hp with rfl | hp
    · simp
    · exact List.mem_cons_of_mem _ (ih hp)

theorem mem_enumFrom_of_mem {α : Type _} {l : List α} {x : α}
    (hx : x ∈ l) (k : Nat) : ∃ i, (i, x) ∈ l.enumFrom k := by
  induction l generalizing k with
  | nil => cases hx
  | cons y ys ih =>
    rcases List.mem_cons.mp hx with rfl | hx2
    · exact ⟨k, by simp [List.enumFrom]⟩
    · obtain ⟨i, hi⟩ := ih hx2 (k + 1)
      exact ⟨i, by simp [List.enumFrom, hi]⟩

theorem relayLoop_ws (l : List (Nat × ExchangeOutcome))
    (acc : List Nat × Option String × Option (List AnswerRR)) :
    (l.foldl relayLoopStep acc).1 =
      acc.1 ++ (l.filter (fun p => usableRelay p.2)).map Prod.fst := by
  induction l generalizing acc with
  | nil => simp
  | cons p l ih =>
    rw [List.foldl_cons, ih]
    rcases p with ⟨i, res, rf⟩
    cases res with
    | error e => simp [relayLoopStep, usableRelay, List.filter_cons]
    | ok ans =>
      cases rf <;> simp [relayLoopStep, usableRelay, List.filter_cons]

theorem relayLoop_err_last (l : List (Nat × ExchangeOutcome))
    (acc : List Nat × Option String × Option (List AnswerRR))
    (p : Nat × ExchangeOutcome) :
    ((l ++ [p]).foldl relayLoopStep acc).2 =
      (match p.2.result with
       | .error e => (some e, none)
       | .ok ans => (none, some ans)) := by
  rw [List.foldl_append, List.foldl_cons, List.foldl_nil]
  rcases p with ⟨i, res, rf⟩
  cases res <;> rfl

/-- C4 amended: for a non-empty relay list, if no attempt yields a usable
entry the resolution fails with "all relays failed"; otherwise, if the last
attempted relay's exchange returned without error, resolution proceeds to
parse certificates from that last response — but if the last attempt
errored, resolution does fail at the exchange stage with that error, even
though a usable relay existed. -/
theorem fetchCert_relay_arbitration (env : ResolverEnv)
    (front : List ExchangeOutcome) (o : ExchangeOutcome) (d : ExchangeOutcome) :
    ((∀ x ∈ front ++ [o], usableRelay x = false) →
      FetchCurrentDNSCryptCert env 32 (front ++ [o]) d =
        .error "all relays failed") ∧
    (∀ e, (∃ x ∈ front ++ [o], usableRelay x = true) → o.result = .error e →
      FetchCurrentDNSCryptCert env 32 (front ++ [o]) d = .error e) ∧
    (∀ ans, (∃ x ∈ front ++ [o], usableRelay x = true) → o.result = .ok ans →
      FetchCurrentDNSCryptCert env 32 (front ++ [o]) d =
        finishFetch env (relayLoop (front ++ [o])).1 none (some ans)) := by
  have henum : (front ++ [o]).enum =
      front.enum ++ [(front.length, o)] := by
    show (front ++ [o]).enumFrom 0 = front.enumFrom 0 ++ [(front.length, o)]
    rw [enumFrom_append]
    simp [List.enumFrom]
  refine ⟨?_, ?_, ?_⟩
  · intro h
    have hws : (relayLoop (front ++ [o])).1 = [] := by
      show ((front ++ [o]).enum.foldl relayLoopStep ([], none, none)).1 = []
      rw [relayLoop_ws]
      simp only [List.nil_append, List.map_eq_nil_iff, List.filter_eq_nil_iff]
      intro p hp
      simp [h p.2 (snd_mem_of_mem_enumFrom hp)]
    simp only [FetchCurrentDNSCryptCert]
    rw [if_neg (by decide), if_pos (by simp), if_pos (by rw [hws]; decide)]
  · intro e hex ho
    obtain ⟨x, hx, hu⟩ := hex
    have hws : (relayLoop (front ++ [o])).1 ≠ [] := by
      show ((front ++ [o]).enum.foldl relayLoopStep ([], none, none)).1 ≠ []
      rw [relayLoop_ws]
      simp only [List.nil_append, ne_eq, List.map_eq_nil_iff,
        List.filter_eq_nil_iff]
      intro hall
      obtain ⟨i, hi⟩ := mem_enumFrom_of_mem hx 0
      exact hall (i, x) hi (by simpa using hu)
    have hlast : (relayLoop (front ++ [o])).2 = (some e, none) := by
      show ((front ++ [o]).enum.foldl relayLoopStep ([], none, none)).2 = _
      rw [henum, relayLoop_err_last]
      rw [ho]
    simp only [FetchCurrentDNSCryptCert]
    rw [if_neg (by decide), if_pos (by simp)]
    rw [if_neg (by
      intro hc
      apply hws
      cases hemp : (relayLoop (front ++ [o])).1 with
      | nil => rfl
      | cons a l => rw [hemp] at hc; simp at hc)]
    rw [show (relayLoop (front ++ [o])).2.1 = some e by rw [hlast]]
    rfl
  · intro ans hex ho
    obtain ⟨x, hx, hu⟩ := hex
    have hws : (relayLoop (front ++ [o])).1 ≠ [] := by
      show ((front ++ [o]).enum.foldl relayLoopStep ([], none, none)).1 ≠ []
      rw [relayLoop_ws]
      simp only [List.nil_append, ne_eq, List.map_eq_nil_iff,
        List.filter_eq_nil_iff]
      intro hall
      obtain ⟨i, hi⟩ := mem_enumFrom_of_mem hx 0
      exact hall (i, x) hi (by simpa using hu)
    have hlast : (relayLoop (front ++ [o])).2 = (none, some ans) := by
      show ((front ++ [o]).enum.foldl relayLoopStep ([], none, none)).2 = _
      rw [henum, relayLoop_err_last]
      rw [ho]
    simp only [FetchCurrentDNSCryptCert]
    rw [if_neg (by decide), if_pos (by simp)]
    rw [if_neg (by
      intro hc
      apply hws
      cases hemp : (relayLoop (front ++ [o])).1 with
      | nil => rfl
      | cons a l => rw [hemp] at hc; simp at hc)]
    rw [show (relayLoop (front ++ [o])).2.1 = none by rw [hlast],
      show (relayLoop (front ++ [o])).2.2 = some ans by rw [hlast]]

/-- Witness for C4's amended claim at concrete relay lists: a single failed
relay triggers "all relays failed"; a usable first relay followed by a
failing last relay yields the last error; a usable first relay followed by
an ok last relay proceeds to parsing. -/
theorem fetchCert_relay_arbitration_witness :
    FetchCurrentDNSCryptCert env0 32 ([] ++ [⟨.error "y", false⟩])
        ⟨.ok [], true⟩ = .error "all relays failed" ∧
    FetchCurrentDNSCryptCert env0 32
        ([⟨.ok [], false⟩] ++ [⟨.error "boom", true⟩]) ⟨.ok [], true⟩ =
      .error "boom" ∧
    FetchCurrentDNSCryptCert env0 32
        ([⟨.ok [], false⟩] ++ [⟨.ok [.txt [certBytesA]], false⟩]) ⟨.ok [], true⟩ =
      finishFetch env0
        (relayLoop ([⟨.ok [], false⟩] ++ [⟨.ok [.txt [certBytesA]], false⟩])).1
        none (some [.txt [certBytesA]]) :=
  ⟨(fetchCert_relay_arbitration env0 [] ⟨.error "y", false⟩ ⟨.ok [], true⟩).1
      (by decide),
   (fetchCert_relay_arbitration env0 [⟨.ok [], false⟩] ⟨.error "boom", true⟩
      ⟨.ok [], true⟩).2.1 "boom" (by decide) rfl,
   (fetchCert_relay_arbitration env0 [⟨.ok [], false⟩]
      ⟨.ok [.txt [certBytesA]], false⟩ ⟨.ok [], true⟩).2.2 [.txt [certBytesA]]
      (by decide) rfl⟩

end DnscryptProxy
